import Mathlib

/-!
Shallow embedding of `src/lecroy.py` (class `LecroyBinaryWaveform` and the
module-level helper `read_timetrace`), for checking the natural-language
specification against the code.

Conventions of the embedding:
* a byte source is a `List Nat` of byte values (each `< 256`);
* Python ints are `Int` (so the `count = -1` sentinel and floor division
  are represented faithfully);
* the float-valued header fields (`VERTICAL_GAIN`, `HORIZ_INTERVAL`, ...)
  are modelled as exact rationals `ℚ`: every claim about them is an
  arithmetic identity, not a bit-level float property;
* fallible Python code (exceptions raised by `numpy` or list indexing)
  is modelled with `Except`.
-/

/-- Byte order, as selected by `_make_fmt` in the source
(`'>' + fmt` when HIFIRST, `'<' + fmt` when LOFIRST). -/
inductive ByteOrder where
  | hifirst
  | lofirst
deriving DecidableEq

/-- Errors raised by numpy calls in the source (`np.fromstring` raises
`ValueError` on a size mismatch; indexing an empty result with `[0]`
raises `IndexError`). -/
inductive NpError where
  | valueError
  | indexError
deriving DecidableEq

/-- Python-level errors visible in the embedding: `AttributeError` (from
`None.size`), `IndexError` (from out-of-range list indexing in the enum
readers), `UnicodeDecodeError` (from `header.decode('ascii')`), and
wrapped numpy errors. -/
inductive PyError where
  | attributeError
  | indexError
  | unicodeDecodeError
  | np (e : NpError)
deriving DecidableEq

instance {ε α : Type} [DecidableEq ε] [DecidableEq α] :
    DecidableEq (Except ε α) := fun x y =>
  match x, y with
  | .ok a, .ok b =>
    if h : a = b then .isTrue (by simp [h]) else .isFalse (by simp [h])
  | .error a, .error b =>
    if h : a = b then .isTrue (by simp [h]) else .isFalse (by simp [h])
  | .ok _, .error _ => .isFalse (by simp)
  | .error _, .ok _ => .isFalse (by simp)

/-- A 2-byte unsigned value assembled from bytes `b0 b1` (in file order)
under the given byte order: this is `np.fromstring(s, '>u2')` resp.
`'<u2'` in `_read_enum`. -/
def word : ByteOrder → Nat → Nat → Nat
  | .hifirst, b0, b1 => b0 * 256 + b1
  | .lofirst, b0, b1 => b0 + b1 * 256

/-- Reinterpret a `width`-byte unsigned value as signed two's complement
(the `i1` / `i2` formats of the sample decoder). -/
def toSigned (width : Nat) (u : Nat) : Int :=
  if u < 2 ^ (8 * width - 1) then (u : Int) else (u : Int) - 2 ^ (8 * width)

/-- The `HIFIRST` property of the source: `self.COMM_ORDER == 0`. -/
def HIFIRST (COMM_ORDER : Nat) : Bool := COMM_ORDER == 0

/-- The `LOFIRST` property of the source: `not self.HIFIRST`. -/
def LOFIRST (COMM_ORDER : Nat) : Bool := ! HIFIRST COMM_ORDER

/-- Model of `_make_fmt`: the byte order used for every multi-byte read, chosen
from the current value of `COMM_ORDER`. -/
def make_fmt_order (COMM_ORDER : Nat) : ByteOrder :=
  if HIFIRST COMM_ORDER then .hifirst else .lofirst

/-- Model of `self._read_enum(fh, at(34))`: read the 2-byte COMM_ORDER field
(bytes `b0 b1` at anchor+34) using the byte order derived from the
current `COMM_ORDER` value. -/
def read_enum_at34 (b0 b1 : Nat) (COMM_ORDER : Nat) : Nat :=
  word (make_fmt_order COMM_ORDER) b0 b1

/-- The byte-order bootstrap of `_read_header`:
`self.COMM_ORDER = 0`, then two successive
`self.COMM_ORDER = self._read_enum(fh, at(34))` assignments, the second
using the order determined by the first. Returns the final `COMM_ORDER`. -/
def commOrderBootstrap (b0 b1 : Nat) : Nat :=
  let co0 : Nat := 0
  let co1 := read_enum_at34 b0 b1 co0
  let co2 := read_enum_at34 b0 b1 co1
  co2

/-- The ASCII bytes of the anchor token `'WAVEDESC'`. -/
def wavedescToken : List Nat := [87, 65, 86, 69, 68, 69, 83, 67]

/-- Whether `needle` occurs at the head of `hay`. -/
def tokenAt : List Nat → List Nat → Bool
  | [], _ => true
  | _ :: _, [] => false
  | n :: ns, h :: hs => n == h && tokenAt ns hs

/-- Python `str.find` semantics on byte lists: index of the first
occurrence of `needle` in `hay`, or `-1` when absent. -/
def pyFind (hay needle : List Nat) : Int :=
  match hay with
  | [] => if tokenAt needle [] then 0 else -1
  | _ :: t =>
    if tokenAt needle hay then 0
    else
      let r := pyFind t needle
      if r = -1 then -1 else r + 1

/-- The anchor step of `_read_header`:
`header = fh.read(50); self.aWAVEDESC = header.decode('ascii').find('WAVEDESC')`.
`decode('ascii')` raises `UnicodeDecodeError` on a byte `≥ 128`;
otherwise the result is whatever `str.find` returns (`-1` when the
token is absent — the source performs no check on it). -/
def anchor_step (src : List Nat) : Except PyError Int :=
  let header := src.take 50
  if header.all (fun b => b < 128) then .ok (pyFind header wavedescToken)
  else .error .unicodeDecodeError

/-- Model of the lookup table of `_read_timebase`, exactly as written
in the source (48 entries, indices 0–47). -/
def timebase_table : List String :=
  ["1_ps/div", "2_ps/div", "5_ps/div", "10_ps/div", "20_ps/div", "50_ps/div",
   "100_ps/div", "200_ps/div", "500_ps/div", "1_ns/div", "2_ns/div",
   "5_ns/div", "10_ns/div", "20_ns/div", "50_ns/div", "100_ns/div",
   "200_ns/div", "500_ns/div", "1_us/div", "2_us/div", "5_us/div",
   "10_us/div", "20_us/div", "50_us/div", "100_us/div", "200_us/div",
   "500_us/div", "1_ms/div", "2_ms/div", "5_ms/div", "10_ms/div",
   "20_ms/div", "50_ms/div", "100_ms/div", "200_ms/div", "500_ms/div",
   "1_s/div", "2_s/div", "5_s/div", "10_s/div", "20_s/div", "50_s/div",
   "100_s/div", "200_s/div", "500_s/div", "1_ks/div", "2_ks/div", "5_ks/div"]

/-- Model of `_read_timebase` applied to an already-read enum value `v`:
`if v == 1000: result = 'EXTERNAL' else: result = timebase[v]`,
where out-of-range indexing raises `IndexError`. -/
def read_timebase_of (v : Nat) : Except PyError String :=
  if v = 1000 then .ok "EXTERNAL"
  else
    match timebase_table[v]? with
    | some s => .ok s
    | none => .error .indexError

/-- Model of the lookup table of `_read_vert_coupling`, exactly as written in the
source (note the comma inside the fifth entry). -/
def coupling_desc : List String :=
  ["DC_50_Ohms", "ground", "DC_1MOhm", "ground", "AC,_1MOhm"]

/-- Model of `_read_vert_coupling` applied to an already-read enum value `v`:
`coupling_desc[v]`, where out-of-range indexing raises `IndexError`. -/
def read_vert_coupling_of (v : Nat) : Except PyError String :=
  match coupling_desc[v]? with
  | some s => .ok s
  | none => .error .indexError

/-- The header fields `read_raw_data` depends on: `self.COMM_TYPE`,
`self._WAVE_ARRAY_1_SIZE`, the resolved byte order, and the bytes of the
source from `self._payload_offset` to end of file. -/
structure RawCfg where
  COMM_TYPE : Nat
  WAVE_ARRAY_1_SIZE : Int
  order : ByteOrder
  payload : List Nat
deriving DecidableEq

/-- Model of `fh.seek(addr); fh.read(nbytes)` relative to the payload: a negative
size means "read to end of file" (Python file semantics), otherwise at
most `nbytes` bytes are returned. -/
def pyRead (payload : List Nat) (nbytes : Int) : List Nat :=
  if nbytes < 0 then payload else payload.take nbytes.toNat

/-- Decode a byte list two's-complement, two bytes per sample, in the
given byte order (`np.fromstring` with format `i2`); a trailing odd byte
contributes nothing at this level (the length checks of `decodeArray`
decide whether that situation is an error). -/
def bytesToSamples2 (order : ByteOrder) : List Nat → List Int
  | b0 :: b1 :: rest => toSigned 2 (word order b0 b1) :: bytesToSamples2 order rest
  | _ => []

/-- Decode a byte list into signed samples of the given width (1 or 2). -/
def bytesToSamples (width : Nat) (order : ByteOrder) (s : List Nat) : List Int :=
  if width = 1 then s.map (toSigned 1) else bytesToSamples2 order s

/-- Model of `np.fromstring(s, dtype=np.dtype((fmt, nsamples)))[0]` in the
source's `read_raw_data`: a non-positive `nsamples` makes the dtype
invalid (`ValueError`); `np.fromstring` requires the data length to be a
multiple of the item size `width * nsamples` (`ValueError` otherwise);
`[0]` on an empty result raises `IndexError`; otherwise the first
`nsamples` decoded samples are returned. -/
def decodeArray (width : Nat) (order : ByteOrder) (s : List Nat)
    (nsamples : Int) : Except NpError (List Int) :=
  if nsamples ≤ 0 then .error .valueError
  else
    let n := nsamples.toNat
    let itemsize := width * n
    if s.length % itemsize ≠ 0 then .error .valueError
    else if s.length < itemsize then .error .indexError
    else .ok ((bytesToSamples width order s).take n)

/-- Model of `read_raw_data(max_samples_count)` of the source:

    nbytes = self._WAVE_ARRAY_1_SIZE
    nsamples = nbytes
    max_bytes = max_samples_count
    if self.COMM_TYPE == 0: fmt = 'i1'
    else: fmt = 'i2'; nsamples //= 2; max_bytes *= 2
    if max_samples_count > 0:
      nsamples = min(nsamples, max_samples_count)
      nbytes = min(nbytes, max_bytes)
    s = read nbytes bytes at the payload offset
    return np.fromstring(s, np.dtype((fmt, nsamples)))[0]
-/
def read_raw_data (cfg : RawCfg) (max_samples_count : Int) :
    Except NpError (List Int) :=
  let nbytes0 := cfg.WAVE_ARRAY_1_SIZE
  let width := if cfg.COMM_TYPE = 0 then 1 else 2
  let nsamples0 := if cfg.COMM_TYPE = 0 then nbytes0 else Int.fdiv nbytes0 2
  let max_bytes := if cfg.COMM_TYPE = 0 then max_samples_count
                   else max_samples_count * 2
  let nsamples := if max_samples_count > 0 then min nsamples0 max_samples_count
                  else nsamples0
  let nbytes := if max_samples_count > 0 then min nbytes0 max_bytes else nbytes0
  decodeArray width cfg.order (pyRead cfg.payload nbytes) nsamples

/-- Model of `read_wave_array`: `self.VERTICAL_GAIN * self.WAVE_ARRAY_RAW -
self.VERTICAL_OFFSET`, a numpy broadcast, i.e. elementwise over the raw
sample array. -/
def read_wave_array (VERTICAL_GAIN VERTICAL_OFFSET : ℚ) (raw : List Int) :
    List ℚ :=
  raw.map (fun x : Int => VERTICAL_GAIN * (x : ℚ) - VERTICAL_OFFSET)

/-- The time vector computed by the `WAVE_ARRAY_1_time` property:
`np.arange(0, n) * self.HORIZ_INTERVAL + self.HORIZ_OFFSET` where `n` is
the size of the cached sample array. -/
def WAVE_ARRAY_1_time (n : Nat) (HORIZ_INTERVAL HORIZ_OFFSET : ℚ) : List ℚ :=
  (List.range n).map (fun i : Nat => (i : ℚ) * HORIZ_INTERVAL + HORIZ_OFFSET)

/-- The mutable per-instance caches set in `__init__`:
`self._WAVE_ARRAY_1 = None; self._WAVE_ARRAY_RAW = None`. -/
structure WaveformState where
  WAVE_ARRAY_1_cache : Option (List ℚ)
  WAVE_ARRAY_RAW_cache : Option (List Int)
deriving DecidableEq

/-- The state right after `__init__` returns: both caches are `None`. -/
def initState : WaveformState := ⟨none, none⟩

/-- The `WAVE_ARRAY_RAW` property: return the cache if set, else run
`read_raw_data(self._count)` and cache the result. -/
def WAVE_ARRAY_RAW_prop (cfg : RawCfg) (count : Int) (st : WaveformState) :
    Except NpError (List Int × WaveformState) :=
  match st.WAVE_ARRAY_RAW_cache with
  | some r => .ok (r, st)
  | none =>
    match read_raw_data cfg count with
    | .error e => .error e
    | .ok r => .ok (r, { st with WAVE_ARRAY_RAW_cache := some r })

/-- The `WAVE_ARRAY_1` property: return the cache if set, else run
`read_wave_array(self._count)` (which reads the `WAVE_ARRAY_RAW`
property) and cache the result. -/
def WAVE_ARRAY_1_prop (cfg : RawCfg) (g o : ℚ) (count : Int)
    (st : WaveformState) : Except NpError (List ℚ × WaveformState) :=
  match st.WAVE_ARRAY_1_cache with
  | some a => .ok (a, st)
  | none =>
    match WAVE_ARRAY_RAW_prop cfg count st with
    | .error e => .error e
    | .ok (r, st1) =>
      let a := read_wave_array g o r
      .ok (a, { st1 with WAVE_ARRAY_1_cache := some a })

/-- The `WAVE_ARRAY_1_time` property: `np.arange(0, self._WAVE_ARRAY_1.size)`
reads the private cache directly (not through the `WAVE_ARRAY_1`
property), so when the cache is still `None` this is `None.size` and
raises `AttributeError`. -/
def WAVE_ARRAY_1_time_prop (HORIZ_INTERVAL HORIZ_OFFSET : ℚ)
    (st : WaveformState) : Except PyError (List ℚ) :=
  match st.WAVE_ARRAY_1_cache with
  | none => .error .attributeError
  | some a => .ok (WAVE_ARRAY_1_time a.length HORIZ_INTERVAL HORIZ_OFFSET)

/-- The module-level `read_timetrace(filename)`:
`bwf = LecroyBinaryWaveform(filename)` (fresh caches), then
`return bwf.WAVE_ARRAY_1_time, bwf.WAVE_ARRAY_1.ravel()` — the tuple is
evaluated left to right, so the time property is read first, on the
fresh state. -/
def read_timetrace (cfg : RawCfg) (g o hin hoff : ℚ) (count : Int) :
    Except PyError (List ℚ × List ℚ) :=
  match WAVE_ARRAY_1_time_prop hin hoff initState with
  | .error e => .error e
  | .ok t =>
    match WAVE_ARRAY_1_prop cfg g o count initState with
    | .error e => .error (.np e)
    | .ok (v, _) => .ok (t, v)

/-- The names in `vars(self)` after `__init__` (hence after
`_read_header`) completes, in assignment order.  Python properties
(`sampling_frequency`, `LOFIRST`, `HIFIRST`, `WAVE_ARRAY_1`,
`WAVE_ARRAY_RAW`, `WAVE_ARRAY_1_time`, `metadata`, `mat`, `comments`)
are class attributes and never appear in `vars(self)`. -/
def instanceAttrNames : List String :=
  ["_count", "_inputfilename", "_file_content",
   "aWAVEDESC", "COMM_ORDER", "TEMPLATE_NAME", "COMM_TYPE",
   "_WAVE_DESCRIPTOR_SIZE", "_USER_TEXT_SIZE", "_RES_DESC1_SIZE",
   "_TRIGTIME_ARRAY_SIZE", "_RIS_TIME_ARRAY_SIZE", "_RES_ARRAY1_SIZE",
   "_WAVE_ARRAY_1_SIZE",
   "INSTRUMENT_NAME", "INSTRUMENT_NUMBER", "TRACE_LABEL",
   "WAVE_SOURCE", "TRIG_TIME", "RECORD_TYPE", "PROCESSING_DONE",
   "TIMEBASE", "VERTICAL_GAIN", "VERTICAL_OFFSET", "VERTUNIT",
   "FIXED_VERT_GAIN", "HORIZ_INTERVAL", "HORIZ_OFFSET", "HORUNIT",
   "HORIZ_UNCERTAINTY", "VERT_COUPLING", "PIXEL_OFFSET",
   "PNTS_PER_SCREEN", "FIRST_VALID_PNT", "LAST_VALID_PNT", "FIRST_POINT",
   "SPARSING_FACTOR", "SEGMENT_INDEX", "SUBARRAY_COUNT", "SWEEPS_PER_ACQ",
   "POINTS_PER_PAIR", "PAIR_OFFSET", "NOM_SUBARRAY_COUNT", "ACQ_DURATION",
   "RIS_SWEEPS", "PROBE_ATT", "MAX_VALUE", "MIN_VALUE", "NOMINAL_BITS",
   "BANDWIDTH_LIMIT", "VERTICAL_VERNIER", "ACQ_VERT_OFFSET", "USER_TEXT",
   "_payload_offset", "_WAVE_ARRAY_1", "_WAVE_ARRAY_RAW"]

/-- ASCII uppercase letter (the attribute names are all ASCII). -/
def asciiIsUpper (c : Char) : Bool := 65 ≤ c.toNat && c.toNat ≤ 90

/-- ASCII lowercase letter. -/
def asciiIsLower (c : Char) : Bool := 97 ≤ c.toNat && c.toNat ≤ 122

/-- Python `str.isupper()` on the ASCII attribute names: at least one
cased character, and no lowercase character. -/
def pyIsUpper (s : String) : Bool :=
  s.data.any asciiIsUpper && s.data.all (fun c => ! asciiIsLower c)

/-- Python `name.startswith('_')`: the first character is an
underscore (ASCII 95). -/
def startsUnderscore (s : String) : Bool :=
  match s.data with
  | c :: _ => c.toNat == 95
  | [] => false

/-- The filter of the `metadata` property:
`not name.startswith('_') and name.isupper()`. -/
def isMetadataName (s : String) : Bool :=
  (! startsUnderscore s) && pyIsUpper s

/-- The key set of the dictionary returned by the `metadata` property. -/
def metadataKeys : List String := instanceAttrNames.filter isMetadataName

/-- The key set of the `jmeta` mapping written by `savecsv`: metadata
keys plus the literal `EXPORTER` and `AUTHOR` tags. -/
def savecsvKeys : List String := metadataKeys ++ ["EXPORTER", "AUTHOR"]

/-! ## Theorems -/

/-- Claim C1: for every decoded waveform and every sample index `i`, the
physical sample equals `verticalGain * rawSamples[i] - verticalOffset`
(gain multiply first, then offset subtract), applied elementwise so that
the physical array is one-to-one with the raw array. -/
theorem read_wave_array_affine (g o : ℚ) (raw : List Int) :
    (read_wave_array g o raw).length = raw.length ∧
    ∀ (i : Nat) (r : Int), raw[i]? = some r →
      (read_wave_array g o raw)[i]? = some (g * (r : ℚ) - o) := by
  refine ⟨List.length_map _ _, ?_⟩
  intro i r h
  simp [read_wave_array, h]

/-- Witness for C1: the spec's round-trip scenario, gain 2, offset 1,
raw samples `[10, 20, 30, 40]`; sample 2 maps to `2 * 30 - 1 = 59`. -/
theorem read_wave_array_affine_witness :
    (read_wave_array 2 1 [10, 20, 30, 40]).length = 4 ∧
    (read_wave_array 2 1 [10, 20, 30, 40])[2]? = some 59 := by
  have h := read_wave_array_affine 2 1 [10, 20, 30, 40]
  refine ⟨h.1, ?_⟩
  have h2 := h.2 2 30 (by decide)
  rw [h2]
  norm_num

/-- The bootstrap in closed form: the first read is big-endian; when it
sees 0 the second read is big-endian again (and also returns 0),
otherwise the second read is little-endian. -/
theorem commOrderBootstrap_eq (b0 b1 : Nat) :
    commOrderBootstrap b0 b1 =
      if b0 * 256 + b1 = 0 then b0 * 256 + b1 else b0 + b1 * 256 := by
  show read_enum_at34 b0 b1 (read_enum_at34 b0 b1 0) = _
  rw [show read_enum_at34 b0 b1 0 = b0 * 256 + b1 from rfl]
  unfold read_enum_at34 make_fmt_order HIFIRST
  by_cases h : b0 * 256 + b1 = 0
  · simp [h, word]
  · simp [h, word]

/-- Claim C3: byte order is resolved by a two-pass bootstrap starting
from the big-endian default; a final value of 0 yields big-endian
(HIFIRST) and any nonzero value little-endian (LOFIRST), and subsequent
multi-byte reads (`_make_fmt`) use the resolved order. -/
theorem comm_order_bootstrap_resolves (b0 b1 : Nat)
    (h0 : b0 < 256) (h1 : b1 < 256) :
    commOrderBootstrap b0 b1
        = read_enum_at34 b0 b1 (read_enum_at34 b0 b1 0) ∧
    (commOrderBootstrap b0 b1 = 0 ↔ b0 = 0 ∧ b1 = 0) ∧
    (HIFIRST (commOrderBootstrap b0 b1) = true ↔
      commOrderBootstrap b0 b1 = 0) ∧
    (LOFIRST (commOrderBootstrap b0 b1) = true ↔
      ¬ commOrderBootstrap b0 b1 = 0) ∧
    (make_fmt_order (commOrderBootstrap b0 b1) = .hifirst ↔
      commOrderBootstrap b0 b1 = 0) := by
  refine ⟨rfl, ?_, ?_, ?_, ?_⟩
  · rw [commOrderBootstrap_eq]
    split <;> omega
  · simp [HIFIRST]
  · simp [LOFIRST, HIFIRST]
  · unfold make_fmt_order HIFIRST
    split <;> rename_i hq <;> simp_all

/-- Witness for C3: bytes `01 00` — first (big-endian) read gives 256,
so the re-read is little-endian and yields 1, hence LOFIRST. -/
theorem comm_order_bootstrap_resolves_witness :
    commOrderBootstrap 1 0 = 0 ↔ (1 = 0 ∧ 0 = 0) :=
  (comm_order_bootstrap_resolves 1 0 (by decide) (by decide)).2.1

/-- Claim C4 (divergence evidence): on a 50-zero-byte source — no
`WAVEDESC` token — the anchor step of `_read_header` does not fail: it
returns `-1` (Python `str.find`'s not-found value, unchecked by the
source) and header decoding continues with offsets relative to `-1`.
When the token is present, the anchor is its position (second conjunct:
token at offset 11 gives anchor 11). -/
theorem anchor_absent_not_fatal :
    anchor_step (List.replicate 50 0) = .ok (-1) ∧
    anchor_step
      (List.replicate 11 32 ++ wavedescToken ++ List.replicate 31 0) =
        .ok 11 := by
  exact ⟨by decide, by decide⟩

/-- Claim C7 (counterexample): the timebase table of the source has 48
entries, so code 46 decodes to `2_ks/div` — not `5_ks/div` — and
code 47 succeeds (it is the last table entry) instead of failing. -/
theorem timebase_code46_not_last :
    read_timebase_of 46 = .ok "2_ks/div" ∧
    ¬ read_timebase_of 46 = .ok ("5_ks/div") ∧
    read_timebase_of 47 = .ok ("5_ks/div") := by
  exact ⟨by decide, by decide, by decide⟩

/-- Claim C7 (amended): the table has 48 entries; the maximum valid code
47 decodes to `5_ks/div`, code 46 to `2_ks/div`, the sentinel 1000 to
`EXTERNAL`, and the first out-of-range code 48 fails (IndexError, the
spec's UnknownEnumCode). -/
theorem timebase_boundary :
    timebase_table.length = 48 ∧
    read_timebase_of 47 = .ok ("5_ks/div") ∧
    read_timebase_of 46 = .ok "2_ks/div" ∧
    read_timebase_of 1000 = .ok "EXTERNAL" ∧
    read_timebase_of 48 = .error .indexError := by
  exact ⟨by decide, by decide, by decide, by decide, by decide⟩

/-- Claim C9 (counterexample): code 4 does not decode to `AC_1MOhm`; the
source's fifth table entry is the string `AC,_1MOhm` (with a comma). -/
theorem vert_coupling_code4_comma :
    ¬ read_vert_coupling_of 4 = .ok "AC_1MOhm" := by decide

/-- Claim C9 (amended): the positional table is
`[DC_50_Ohms, ground, DC_1MOhm, ground, AC,_1MOhm]` — the fifth entry
spelt with a comma — so code 4 decodes to `AC,_1MOhm`, and any
out-of-range code (5 or more) fails (IndexError, the spec's
UnknownEnumCode) rather than silently defaulting. -/
theorem vert_coupling_table (v : Nat) (h : 5 ≤ v) :
    read_vert_coupling_of 4 = .ok ("AC,_1MOhm") ∧
    coupling_desc = ["DC_50_Ohms", "ground", "DC_1MOhm", "ground",
      "AC,_1MOhm"] ∧
    read_vert_coupling_of v = .error .indexError := by
  refine ⟨by decide, rfl, ?_⟩
  have hn : coupling_desc[v]? = none :=
    List.getElem?_eq_none (by simpa [coupling_desc] using h)
  simp [read_vert_coupling_of, hn]

/-- Witness for C9 (amended): the first out-of-range code, 5, fails. -/
theorem vert_coupling_table_witness :
    read_vert_coupling_of 5 = .error .indexError :=
  (vert_coupling_table 5 (by decide)).2.2

/-- Claim C8 (counterexample): neither a sampling-frequency entry nor a
`LOFIRST` entry appears among the metadata keys (nor, therefore, in the
mapping `savecsv` hands to the exporter): `sampling_frequency`,
`LOFIRST` and `HIFIRST` are class-level properties, which `vars(self)`
never contains, and `sampling_frequency` is lowercase besides. -/
theorem metadata_lacks_derived :
    "LOFIRST" ∉ metadataKeys ∧
    "sampling_frequency" ∉ metadataKeys ∧
    "SAMPLING_FREQUENCY" ∉ metadataKeys ∧
    "LOFIRST" ∉ savecsvKeys ∧
    "sampling_frequency" ∉ savecsvKeys := by
  exact ⟨by decide, by decide, by decide, by decide, by decide⟩

/-- Claim C8 (amended): the metadata mapping contains exactly the
decoded header fields stored as all-caps, non-underscore-prefixed
instance attributes; the derived values (`sampling_frequency`,
`LOFIRST`) are separate properties and are not part of it; `savecsv`
additionally inserts the literal `EXPORTER` and `AUTHOR` tags. -/
theorem metadata_keys_exact :
    metadataKeys =
      ["COMM_ORDER", "TEMPLATE_NAME", "COMM_TYPE",
       "INSTRUMENT_NAME", "INSTRUMENT_NUMBER", "TRACE_LABEL",
       "WAVE_SOURCE", "TRIG_TIME", "RECORD_TYPE", "PROCESSING_DONE",
       "TIMEBASE", "VERTICAL_GAIN", "VERTICAL_OFFSET", "VERTUNIT",
       "FIXED_VERT_GAIN", "HORIZ_INTERVAL", "HORIZ_OFFSET", "HORUNIT",
       "HORIZ_UNCERTAINTY", "VERT_COUPLING", "PIXEL_OFFSET",
       "PNTS_PER_SCREEN", "FIRST_VALID_PNT", "LAST_VALID_PNT",
       "FIRST_POINT", "SPARSING_FACTOR", "SEGMENT_INDEX",
       "SUBARRAY_COUNT", "SWEEPS_PER_ACQ", "POINTS_PER_PAIR",
       "PAIR_OFFSET", "NOM_SUBARRAY_COUNT", "ACQ_DURATION", "RIS_SWEEPS",
       "PROBE_ATT", "MAX_VALUE", "MIN_VALUE", "NOMINAL_BITS",
       "BANDWIDTH_LIMIT", "VERTICAL_VERNIER", "ACQ_VERT_OFFSET",
       "USER_TEXT"] ∧
    savecsvKeys = metadataKeys ++ ["EXPORTER", "AUTHOR"] := by
  exact ⟨by decide, rfl⟩

/-- Claim C10: on a freshly constructed waveform (both caches `None`)
the time-vector property raises `AttributeError` (it dereferences the
not-yet-computed `_WAVE_ARRAY_1` cache); it succeeds once the
`WAVE_ARRAY_1` property has been computed; and since `read_timetrace`
evaluates the time property first (tuple evaluation is left to right),
`read_timetrace` itself always fails with that `AttributeError`. -/
theorem time_property_requires_samples (cfg : RawCfg) (g o hin hoff : ℚ)
    (count : Int) :
    WAVE_ARRAY_1_time_prop hin hoff initState = .error .attributeError ∧
    read_timetrace cfg g o hin hoff count = .error .attributeError ∧
    (∀ st a st2, WAVE_ARRAY_1_prop cfg g o count st = .ok (a, st2) →
      WAVE_ARRAY_1_time_prop hin hoff st2 =
        .ok (WAVE_ARRAY_1_time a.length hin hoff)) := by
  refine ⟨rfl, rfl, ?_⟩
  intro st a st2 h
  unfold WAVE_ARRAY_1_prop at h
  rcases hc : st.WAVE_ARRAY_1_cache with _ | x
  · rw [hc] at h
    rcases hr : WAVE_ARRAY_RAW_prop cfg count st with e | ⟨r, st1⟩
    · rw [hr] at h
      cases h
    · rw [hr] at h
      simp only [Except.ok.injEq, Prod.mk.injEq] at h
      obtain ⟨ha, hst⟩ := h
      rw [← hst]
      simp [WAVE_ARRAY_1_time_prop, ha]
  · rw [hc] at h
    simp only [Except.ok.injEq, Prod.mk.injEq] at h
    obtain ⟨ha, hst⟩ := h
    rw [← hst]
    simp [WAVE_ARRAY_1_time_prop, hc, ha]

/-- Witness for C10: a concrete 2-sample 8-bit waveform; the fresh-state
time read and `read_timetrace` fail, while after computing the sample
array (cache `[19, 39]`, raw `[10, 20]`) the time read succeeds. -/
theorem time_property_requires_samples_witness :
    WAVE_ARRAY_1_time_prop 1 0 initState = .error .attributeError ∧
    read_timetrace ⟨0, 2, .hifirst, [10, 20]⟩ 2 1 1 0 (-1) =
      .error .attributeError ∧
    WAVE_ARRAY_1_time_prop 1 0
        ⟨some (read_wave_array 2 1 [10, 20]), some [10, 20]⟩ =
      .ok (WAVE_ARRAY_1_time 2 1 0) := by
  have h := time_property_requires_samples ⟨0, 2, .hifirst, [10, 20]⟩
    2 1 1 0 (-1)
  refine ⟨h.1, h.2.1, ?_⟩
  have h3 := h.2.2 initState (read_wave_array 2 1 [10, 20])
    ⟨some (read_wave_array 2 1 [10, 20]), some [10, 20]⟩ rfl
  simpa [read_wave_array] using h3

/-- Claim C2: on the decode path (raw decode succeeded, the physical
array was computed and cached), the time vector is
`i * horizInterval + horizOffset` for `i` in `[0, sampleCount)`, and its
length equals both the physical and the raw array length (whatever
truncation `count` produced). -/
theorem time_vector_formula (cfg : RawCfg) (g o hin hoff : ℚ)
    (count : Int) (r : List Int)
    (h : read_raw_data cfg count = .ok r) :
    WAVE_ARRAY_1_prop cfg g o count initState =
      .ok (read_wave_array g o r,
           ⟨some (read_wave_array g o r), some r⟩) ∧
    ∃ t : List ℚ,
      WAVE_ARRAY_1_time_prop hin hoff
          ⟨some (read_wave_array g o r), some r⟩ = .ok t ∧
      t.length = (read_wave_array g o r).length ∧
      (read_wave_array g o r).length = r.length ∧
      ∀ (i : Nat) (hi2 : i < t.length),
        t.get ⟨i, hi2⟩ = (i : ℚ) * hin + hoff := by
  constructor
  · unfold WAVE_ARRAY_1_prop WAVE_ARRAY_RAW_prop initState
    simp [h]
  · refine ⟨WAVE_ARRAY_1_time (read_wave_array g o r).length hin hoff,
      rfl, ?_, List.length_map _ _, ?_⟩
    · simp [WAVE_ARRAY_1_time]
    · intro i hi2
      simp [WAVE_ARRAY_1_time]

/-- Witness for C2: the spec's round-trip scenario (4 samples, gain 2,
offset 1, interval 1/2, offset 7): indices map to `i/2 + 7`. -/
theorem time_vector_formula_witness :
    WAVE_ARRAY_1_prop ⟨0, 4, .hifirst, [10, 20, 30, 40]⟩ 2 1 (-1)
        initState =
      .ok (read_wave_array 2 1 [10, 20, 30, 40],
           ⟨some (read_wave_array 2 1 [10, 20, 30, 40]),
            some [10, 20, 30, 40]⟩) :=
  (time_vector_formula ⟨0, 4, .hifirst, [10, 20, 30, 40]⟩ 2 1 (1/2) 7
    (-1) [10, 20, 30, 40] (by decide)).1

/-- Two-byte decoding yields half as many samples as bytes (floor). -/
theorem bytesToSamples2_length (order : ByteOrder) :
    ∀ s : List Nat, (bytesToSamples2 order s).length = s.length / 2
  | [] => by simp [bytesToSamples2]
  | [b] => by simp [bytesToSamples2]
  | b0 :: b1 :: rest => by
    simp only [bytesToSamples2, List.length_cons,
      bytesToSamples2_length order rest]
    omega

/-- Two-byte decoding of a byte-range whose size is an even number of
bytes is the corresponding sample range: truncating the input to
`2 * k` bytes truncates the output to `k` samples. -/
theorem bytesToSamples2_take (order : ByteOrder) :
    ∀ (k : Nat) (s : List Nat),
      bytesToSamples2 order (s.take (2 * k)) =
        (bytesToSamples2 order s).take k
  | 0, s => by simp [bytesToSamples2]
  | k + 1, [] => by simp [bytesToSamples2]
  | k + 1, [b] => by simp [bytesToSamples2]
  | k + 1, b0 :: b1 :: rest => by
    have h2 : 2 * (k + 1) = 2 * k + 1 + 1 := by ring
    rw [h2]
    simp only [List.take_succ_cons, bytesToSamples2]
    rw [bytesToSamples2_take order k rest]

/-- Python floor division `// 2` agrees with `Nat` division on
non-negative ints. -/
theorem int_fdiv_two (m : Nat) :
    Int.fdiv (m : Int) 2 = ((m / 2 : Nat) : Int) :=
  (Int.ofNat_fdiv m 2).symm

/-- Evaluation of `read_raw_data` with a non-positive requested count: no clamping
happens. -/
theorem read_raw_data_nonpos (cfg : RawCfg) (c : Int) (hc : ¬ 0 < c) :
    read_raw_data cfg c =
      decodeArray (if cfg.COMM_TYPE = 0 then 1 else 2) cfg.order
        (pyRead cfg.payload cfg.WAVE_ARRAY_1_SIZE)
        (if cfg.COMM_TYPE = 0 then cfg.WAVE_ARRAY_1_SIZE
         else Int.fdiv cfg.WAVE_ARRAY_1_SIZE 2) := by
  simp only [read_raw_data, gt_iff_lt, if_neg hc]

/-- Evaluation of `read_raw_data` with a positive requested count: both the byte
range and the sample count are clamped. -/
theorem read_raw_data_pos (cfg : RawCfg) (c : Int) (hc : 0 < c) :
    read_raw_data cfg c =
      decodeArray (if cfg.COMM_TYPE = 0 then 1 else 2) cfg.order
        (pyRead cfg.payload
          (min cfg.WAVE_ARRAY_1_SIZE
            (if cfg.COMM_TYPE = 0 then c else c * 2)))
        (min (if cfg.COMM_TYPE = 0 then cfg.WAVE_ARRAY_1_SIZE
              else Int.fdiv cfg.WAVE_ARRAY_1_SIZE 2) c) := by
  simp only [read_raw_data, gt_iff_lt, if_pos hc]

/-- A non-positive sample count makes the numpy dtype invalid. -/
theorem decodeArray_err_nonpos (width : Nat) (ord : ByteOrder)
    (s : List Nat) (nsamples : Int) (hn : nsamples ≤ 0) :
    decodeArray width ord s nsamples = .error .valueError := by
  unfold decodeArray
  rw [if_pos hn]

/-- A data length that is not a multiple of the item size makes
`np.fromstring` fail. -/
theorem decodeArray_err_mod (width : Nat) (ord : ByteOrder)
    (s : List Nat) (n : Nat) (hn : 0 < n)
    (hmod : s.length % (width * n) ≠ 0) :
    decodeArray width ord s (n : Int) = .error .valueError := by
  unfold decodeArray
  rw [if_neg (by omega)]
  simp only [Int.toNat_natCast]
  rw [if_pos hmod]

/-- The successful branch of the numpy decode: data length exactly one
item. -/
theorem decodeArray_ok (width : Nat) (ord : ByteOrder) (s : List Nat)
    (n : Nat) (hn : 0 < n) (hlen : s.length = width * n) :
    decodeArray width ord s (n : Int) =
      .ok ((bytesToSamples width ord s).take n) := by
  unfold decodeArray
  rw [if_neg (by omega)]
  simp only [Int.toNat_natCast]
  rw [hlen]
  rw [if_neg (by simp)]
  rw [if_neg (by omega)]

/-- Claim C5 (amended): with 16-bit samples and no truncation (a
non-positive requested count), the decode fails whenever
`waveArraySize` is odd, and for even `waveArraySize` it yields exactly
`waveArraySize / 2` samples (given a payload of at least
`waveArraySize` bytes). The failure is an untruncated-decode property:
see the counterexample for a positive count that makes an odd
`waveArraySize` succeed. -/
theorem read_raw_16bit_untruncated (cfg : RawCfg) (c : Int)
    (h16 : cfg.COMM_TYPE ≠ 0) (hc : c ≤ 0)
    (hws : 0 < cfg.WAVE_ARRAY_1_SIZE)
    (hlen : cfg.WAVE_ARRAY_1_SIZE.toNat ≤ cfg.payload.length) :
    (¬ 2 ∣ cfg.WAVE_ARRAY_1_SIZE →
      ∃ e, read_raw_data cfg c = .error e) ∧
    (2 ∣ cfg.WAVE_ARRAY_1_SIZE →
      ∃ l, read_raw_data cfg c = .ok l ∧
        l.length = cfg.WAVE_ARRAY_1_SIZE.toNat / 2) := by
  obtain ⟨m, hm⟩ : ∃ m : Nat, cfg.WAVE_ARRAY_1_SIZE = (m : Int) :=
    ⟨cfg.WAVE_ARRAY_1_SIZE.toNat, (Int.toNat_of_nonneg hws.le).symm⟩
  have hm0 : 0 < m := by omega
  have hmlen : m ≤ cfg.payload.length := by omega
  have hnf := read_raw_data_nonpos cfg c (by omega)
  rw [if_neg h16, if_neg h16, hm, int_fdiv_two m] at hnf
  have hread : pyRead cfg.payload (m : Int) = cfg.payload.take m := by
    have hnn : ¬ ((m : Int) < 0) := by omega
    simp [pyRead, hnn]
  rw [hread] at hnf
  have hslen : (cfg.payload.take m).length = m := by
    simp only [List.length_take]
    omega
  constructor
  · intro hodd
    rw [hm] at hodd
    have hoddm : m % 2 = 1 := by omega
    rcases Nat.lt_or_ge m 2 with h1 | h2
    · have hz : m / 2 = 0 := by omega
      refine ⟨.valueError, ?_⟩
      rw [hnf, hz]
      exact decodeArray_err_nonpos 2 cfg.order _ _ (by simp)
    · have h3 : 3 ≤ m := by omega
      refine ⟨.valueError, ?_⟩
      rw [hnf]
      apply decodeArray_err_mod 2 cfg.order _ (m / 2) (by omega)
      rw [hslen]
      have h2m : 2 * (m / 2) = m - 1 := by omega
      rw [h2m]
      have hmod1 : m % (m - 1) = 1 := by
        rw [Nat.mod_eq_sub_mod (by omega)]
        have hsub : m - (m - 1) = 1 := by omega
        rw [hsub]
        exact Nat.mod_eq_of_lt (by omega)
      omega
  · intro heven
    rw [hm] at heven
    have hevenm : m % 2 = 0 := by omega
    refine ⟨(bytesToSamples 2 cfg.order (cfg.payload.take m)).take (m / 2),
      ?_, ?_⟩
    · rw [hnf]
      apply decodeArray_ok 2 cfg.order _ (m / 2) (by omega)
      rw [hslen]
      omega
    · have hb : (bytesToSamples 2 cfg.order
          (cfg.payload.take m)).length = m / 2 := by
        simp [bytesToSamples, bytesToSamples2_length, hslen]
      simp only [List.length_take, hb, hm, Int.toNat_natCast]
      omega

/-- Claim C5 (counterexample): an odd `waveArraySize` (5) with 16-bit
samples does NOT always fail — a positive requested count (2) clamps
the read to 4 bytes and the decode succeeds. -/
theorem read_raw_odd_truncated_succeeds :
    read_raw_data ⟨1, 5, .hifirst, [0, 1, 0, 2, 9]⟩ 2 = .ok [1, 2] := by
  decide

/-- Witness for C5 (amended): `waveArraySize = 3` (odd, fails) and
`waveArraySize = 4` (even, two samples). -/
theorem read_raw_16bit_untruncated_witness :
    (∃ e, read_raw_data ⟨1, 3, .hifirst, [0, 1, 2]⟩ (-1) = .error e) ∧
    (∃ l, read_raw_data ⟨1, 4, .hifirst, [0, 1, 0, 2]⟩ (-1) = .ok l ∧
      l.length = 2) := by
  constructor
  · exact (read_raw_16bit_untruncated ⟨1, 3, .hifirst, [0, 1, 2]⟩ (-1)
      (by decide) (by decide) (by decide) (by decide)).1 (by decide)
  · exact (read_raw_16bit_untruncated ⟨1, 4, .hifirst, [0, 1, 0, 2]⟩ (-1)
      (by decide) (by decide) (by decide) (by decide)).2 (by decide)

/-- Width-1 decoding is a signed byte map. -/
theorem bytesToSamples_one (ord : ByteOrder) (u : List Nat) :
    bytesToSamples 1 ord u = u.map (toSigned 1) := by
  simp [bytesToSamples]

/-- Width-2 decoding is the two-byte decoder. -/
theorem bytesToSamples_two (ord : ByteOrder) (u : List Nat) :
    bytesToSamples 2 ord u = bytesToSamples2 ord u := by
  simp [bytesToSamples]

/-- Claim C6: truncation is a read-size optimization, not a transform —
a non-positive requested count decodes identically to `count = -1`
("all available samples"), and for any positive requested count the
decode is exactly the corresponding first segment of the untruncated
decode (so `count = 10` on a file with at least 10 samples yields its
first 10 raw samples). Hypotheses: a positive `waveArraySize` wholly
present in the payload, even when samples are 16-bit. -/
theorem read_raw_data_truncation (cfg : RawCfg)
    (hws : 0 < cfg.WAVE_ARRAY_1_SIZE)
    (hdiv : cfg.COMM_TYPE ≠ 0 → 2 ∣ cfg.WAVE_ARRAY_1_SIZE)
    (hlen : cfg.WAVE_ARRAY_1_SIZE.toNat ≤ cfg.payload.length) :
    (∀ c : Int, c ≤ 0 → read_raw_data cfg c = read_raw_data cfg (-1)) ∧
    (∀ (c : Int) (l : List Int), 0 < c →
      read_raw_data cfg (-1) = .ok l →
      read_raw_data cfg c = .ok (l.take c.toNat)) := by
  obtain ⟨m, hm⟩ : ∃ m : Nat, cfg.WAVE_ARRAY_1_SIZE = (m : Int) :=
    ⟨cfg.WAVE_ARRAY_1_SIZE.toNat, (Int.toNat_of_nonneg hws.le).symm⟩
  have hm0 : 0 < m := by omega
  have hmlen : m ≤ cfg.payload.length := by omega
  have hreadfull : pyRead cfg.payload (m : Int) = cfg.payload.take m := by
    have hnn : ¬ ((m : Int) < 0) := by omega
    simp [pyRead, hnn]
  have hslen : (cfg.payload.take m).length = m := by
    simp only [List.length_take]
    omega
  constructor
  · intro c hc
    rw [read_raw_data_nonpos cfg c (by omega),
        read_raw_data_nonpos cfg (-1) (by decide)]
  · intro c l hc hfull
    have hnf := read_raw_data_nonpos cfg (-1) (by decide)
    have hpf := read_raw_data_pos cfg c hc
    by_cases h0 : cfg.COMM_TYPE = 0
    · -- 8-bit samples
      rw [if_pos h0, if_pos h0, hm, hreadfull] at hnf
      have hok : read_raw_data cfg (-1) =
          .ok ((bytesToSamples 1 cfg.order (cfg.payload.take m)).take m) := by
        rw [hnf]
        exact decodeArray_ok 1 cfg.order _ m hm0 (by rw [hslen]; omega)
      rw [hok] at hfull
      injection hfull with hl
      subst hl
      rw [if_pos h0, if_pos h0, if_pos h0, hm] at hpf
      set n := min m c.toNat with hn
      have hmin : min (m : Int) c = (n : Int) := by omega
      rw [hmin] at hpf
      have hreadn : pyRead cfg.payload (n : Int) = cfg.payload.take n := by
        have hnn : ¬ ((n : Int) < 0) := by omega
        simp [pyRead, hnn]
      rw [hreadn] at hpf
      have hn0 : 0 < n := by omega
      have hslen2 : (cfg.payload.take n).length = n := by
        simp only [List.length_take]
        omega
      have hok2 : read_raw_data cfg c =
          .ok ((bytesToSamples 1 cfg.order (cfg.payload.take n)).take n) := by
        rw [hpf]
        exact decodeArray_ok 1 cfg.order _ n hn0 (by rw [hslen2]; omega)
      rw [hok2]
      congr 1
      rw [bytesToSamples_one, bytesToSamples_one, List.map_take,
        List.map_take, List.take_take, List.take_take, List.take_take]
      congr 1
      omega
    · -- 16-bit samples
      have hdvd : 2 ∣ cfg.WAVE_ARRAY_1_SIZE := hdiv h0
      rw [hm] at hdvd
      have he : m % 2 = 0 := by omega
      rw [if_neg h0, if_neg h0, hm, int_fdiv_two, hreadfull] at hnf
      have hk0 : 0 < m / 2 := by omega
      have hok : read_raw_data cfg (-1) =
          .ok ((bytesToSamples 2 cfg.order
            (cfg.payload.take m)).take (m / 2)) := by
        rw [hnf]
        exact decodeArray_ok 2 cfg.order _ (m / 2) hk0 (by rw [hslen]; omega)
      rw [hok] at hfull
      injection hfull with hl
      subst hl
      rw [if_neg h0, if_neg h0, if_neg h0, hm, int_fdiv_two] at hpf
      set n2 := min (m / 2) c.toNat with hn2
      have hmin1 : min (m : Int) (c * 2) = ((2 * n2 : Nat) : Int) := by
        omega
      have hmin2 : min ((m / 2 : Nat) : Int) c = (n2 : Int) := by omega
      rw [hmin1, hmin2] at hpf
      have hread2 : pyRead cfg.payload ((2 * n2 : Nat) : Int) =
          cfg.payload.take (2 * n2) := by
        have hnn : ¬ (((2 * n2 : Nat) : Int) < 0) := by omega
        simp only [pyRead, if_neg hnn, Int.toNat_natCast]
      rw [hread2] at hpf
      have hn20 : 0 < n2 := by omega
      have hslen2 : (cfg.payload.take (2 * n2)).length = 2 * n2 := by
        simp only [List.length_take]
        omega
      have hok2 : read_raw_data cfg c =
          .ok ((bytesToSamples 2 cfg.order
            (cfg.payload.take (2 * n2))).take n2) := by
        rw [hpf]
        exact decodeArray_ok 2 cfg.order _ n2 hn20 (by rw [hslen2])
      rw [hok2]
      congr 1
      rw [bytesToSamples_two, bytesToSamples_two]
      have hpt : cfg.payload.take (2 * n2) =
          (cfg.payload.take m).take (2 * n2) := by
        rw [List.take_take, min_eq_left (by omega)]
      rw [hpt, bytesToSamples2_take cfg.order n2 (cfg.payload.take m),
        List.take_take, List.take_take]
      congr 1
      omega

/-- Witness for C6: a 4-sample 16-bit file; `count = 1` returns the
first sample of the full decode. -/
theorem read_raw_data_truncation_witness :
    read_raw_data ⟨1, 8, .hifirst, [0, 1, 0, 2, 0, 3, 0, 4]⟩ (-2) =
      read_raw_data ⟨1, 8, .hifirst, [0, 1, 0, 2, 0, 3, 0, 4]⟩ (-1) ∧
    read_raw_data ⟨1, 8, .hifirst, [0, 1, 0, 2, 0, 3, 0, 4]⟩ 1 =
      .ok ([1, 2, 3, 4].take 1) := by
  have h := read_raw_data_truncation ⟨1, 8, .hifirst, [0, 1, 0, 2, 0, 3, 0, 4]⟩
    (by decide) (fun _ => by decide) (by decide)
  exact ⟨h.1 (-2) (by decide), h.2 1 [1, 2, 3, 4] (by decide) (by decide)⟩
